import Mathlib

/-!
Verification development for the Elaara meeting-recorder storage core
(`src/lib/db.ts`, `src/lib/costs.ts`, the export/import module, the whisper
chunk combiner and the shared type declarations).

Modelling conventions used throughout:

* JavaScript strings are `List Char` (`Str` below); `String.prototype.includes`
  is substring containment, `toLowerCase` maps `Char.toLower` over the
  characters.
* A `Blob` is its byte content, `List Nat`; `new Blob()` is `[]`,
  `blob.size` is `List.length`.
* JavaScript numbers are exact rationals `ℚ` (the code does only
  additions/comparisons on them; IEEE-754 rounding is below the abstraction
  level of the specification).
* A JavaScript `Date` is its epoch-millisecond timestamp (`Date` below).
  `Date.prototype.toISOString` is injective on valid dates and
  `new Date(isoString)` inverts it on the canonical strings produced by
  `toISOString`, so the canonical ISO-8601 string is represented by the
  timestamp it denotes (`ISOStr`).
* The IndexedDB object stores are keyed collections; they are represented by
  lists of records together with key-based lookup (`find?` on the key) and
  keyed upsert for `db.put` (all list reads of the code re-sort by date or
  look up by key, so the representation order is immaterial).
* `async` functions of the code are pure state-passing functions here;
  `throw` is `Except.error` carrying the message.
* Environment inputs (the current time `new Date()`, the fresh id from
  `crypto.randomUUID()`, the `YYYY-MM` month key computed from the clock) are
  passed as explicit parameters.
-/

namespace Elaara

/-- JavaScript string, as its character list. -/
abbrev Str := List Char

/-- Blob content: the byte list. `new Blob()` is `[]`; `size` is `length`. -/
abbrev Blob := List Nat

/-- A JavaScript `Date`: its epoch-millisecond timestamp. -/
structure Date where
  ms : Int
deriving DecidableEq, Repr

/-- The canonical ISO-8601 string produced by `Date.prototype.toISOString`,
represented by the timestamp it denotes (the formatting is a bijection
between valid timestamps and canonical strings). -/
structure ISOStr where
  ms : Int
deriving DecidableEq, Repr

/-- `date.toISOString()` (src/lib/db.ts uses it for every stored date). -/
def Date.toISOString (d : Date) : ISOStr := ⟨d.ms⟩

/-- `new Date(isoString)` on a canonical ISO string. -/
def parseDate (s : ISOStr) : Date := ⟨s.ms⟩

/-- `Speaker` from the shared type declarations. -/
structure Speaker where
  id : Str
  name : Str
  color : Str
deriving DecidableEq, Repr

/-- `priority` of an action item: 'high' | 'medium' | 'low'. -/
inductive Priority
  | high
  | medium
  | low
deriving DecidableEq, Repr

/-- `ActionItem` from the shared type declarations. -/
structure ActionItem where
  task : Str
  owner : Str
  deadline : Option Str
  priority : Option Priority
deriving DecidableEq, Repr

/-- Claude model tier: 'haiku' | 'sonnet'. -/
inductive ModelTier
  | haiku
  | sonnet
deriving DecidableEq, Repr

/-- In-memory `Summary` (rich `generatedAt : Date`). -/
structure Summary where
  executive : Str
  keyPoints : List Str
  actionItems : List ActionItem
  decisions : List Str
  questions : List Str
  category : Str
  tags : List Str
  generatedAt : Date
  model : ModelTier
deriving DecidableEq, Repr

/-- Storage-side `SummaryDB` (`generatedAt` serialized to an ISO string). -/
structure SummaryDB where
  executive : Str
  keyPoints : List Str
  actionItems : List ActionItem
  decisions : List Str
  questions : List Str
  category : Str
  tags : List Str
  generatedAt : ISOStr
  model : ModelTier
deriving DecidableEq, Repr

/-- In-memory `Meeting` (rich `Date`s, always-present `audioBlob`). -/
structure Meeting where
  id : Str
  title : Str
  date : Date
  duration : ℚ
  audioBlob : Blob
  transcript : Str
  summary : Option Summary
  speakers : List Speaker
  tags : List Str
  category : Str
  archived : Bool
  createdAt : Date
  updatedAt : Date
deriving DecidableEq, Repr

/-- Storage-side `MeetingDB` (ISO-string dates, nullable `audioBlob`). -/
structure MeetingDB where
  id : Str
  title : Str
  date : ISOStr
  duration : ℚ
  audioBlob : Option Blob
  transcript : Str
  summary : Option SummaryDB
  speakers : List Speaker
  tags : List Str
  category : Str
  archived : Bool
  createdAt : ISOStr
  updatedAt : ISOStr
deriving DecidableEq, Repr

/-- `CostTrackingDB` record (stored form; `lastUpdated` is an ISO string). -/
structure CostTrackingDB where
  month : Str
  transcriptionCost : ℚ
  summarizationCost : ℚ
  meetingCount : Nat
  totalCost : ℚ
  lastUpdated : ISOStr
deriving DecidableEq, Repr

/-- `summaryToDB` (src/lib/db.ts): serialize `generatedAt`. -/
def summaryToDB (s : Summary) : SummaryDB :=
  { executive := s.executive
    keyPoints := s.keyPoints
    actionItems := s.actionItems
    decisions := s.decisions
    questions := s.questions
    category := s.category
    tags := s.tags
    generatedAt := s.generatedAt.toISOString
    model := s.model }

/-- `dbToSummary` (src/lib/db.ts): parse `generatedAt`. -/
def dbToSummary (s : SummaryDB) : Summary :=
  { executive := s.executive
    keyPoints := s.keyPoints
    actionItems := s.actionItems
    decisions := s.decisions
    questions := s.questions
    category := s.category
    tags := s.tags
    generatedAt := parseDate s.generatedAt
    model := s.model }

/-- `meetingToDB` (src/lib/db.ts): dates to ISO strings; the audio blob is
stored as `null` when the meeting is archived. -/
def meetingToDB (m : Meeting) : MeetingDB :=
  { id := m.id
    title := m.title
    date := m.date.toISOString
    duration := m.duration
    audioBlob := if m.archived then none else some m.audioBlob
    transcript := m.transcript
    summary := m.summary.map summaryToDB
    speakers := m.speakers
    tags := m.tags
    category := m.category
    archived := m.archived
    createdAt := m.createdAt.toISOString
    updatedAt := m.updatedAt.toISOString }

/-- `dbToMeeting` (src/lib/db.ts): `db.audioBlob || new Blob()` — a `null`
audio blob becomes the empty blob (a present-but-empty `Blob` object is
truthy in JavaScript and is kept as is). -/
def dbToMeeting (db : MeetingDB) : Meeting :=
  { id := db.id
    title := db.title
    date := parseDate db.date
    duration := db.duration
    audioBlob := match db.audioBlob with
      | none => []
      | some b => b
    transcript := db.transcript
    summary := db.summary.map dbToSummary
    speakers := db.speakers
    tags := db.tags
    category := db.category
    archived := db.archived
    createdAt := parseDate db.createdAt
    updatedAt := parseDate db.updatedAt }

/-- The `meetings` object store (keyed by `id`; list order immaterial, see
module comment). -/
abbrev Store := List MeetingDB

/-- The `costs` object store (keyed by `month`). -/
abbrev CostStore := List CostTrackingDB

/-- Key-based lookup in a keyed collection (`db.get(collection, key)`). -/
def lookupBy {α : Type} (key : α → Str) (s : List α) (k : Str) : Option α :=
  s.find? (fun x => key x == k)

/-- Keyed upsert (`db.put`): at most one record per key; the record with the
given key is replaced (or inserted if absent). -/
def upsertBy {α : Type} (key : α → Str) (s : List α) (x : α) : List α :=
  s.filter (fun y => !(key y == key x)) ++ [x]

/-- `db.get('meetings', id)`. -/
def getDB (s : Store) (id : Str) : Option MeetingDB :=
  lookupBy (fun r => r.id) s id

/-- `db.put('meetings', rec)`. -/
def putDB (s : Store) (r : MeetingDB) : Store :=
  upsertBy (fun r => r.id) s r

/-- `saveMeeting` (src/lib/db.ts): convert and upsert. -/
def saveMeeting (s : Store) (m : Meeting) : Store :=
  putDB s (meetingToDB m)

/-- `getMeeting` (src/lib/db.ts). -/
def getMeeting (s : Store) (id : Str) : Option Meeting :=
  (getDB s id).map dbToMeeting

/-- The sort of `getAllMeetings`: `.sort((a, b) => b.date.getTime() - a.date.getTime())`,
date descending. -/
def sortByDateDesc (l : List Meeting) : List Meeting :=
  List.insertionSort (fun a b => b.date.ms ≤ a.date.ms) l

/-- `getAllMeetings` (src/lib/db.ts): all records, converted, sorted by date
descending (newest first). -/
def getAllMeetings (s : Store) : List Meeting :=
  sortByDateDesc (s.map dbToMeeting)

/-- `deleteMeeting` (src/lib/db.ts): `db.delete('meetings', id)`. -/
def deleteMeeting (s : Store) (id : Str) : Store :=
  s.filter (fun r => !(r.id == id))

/-- `Partial<Meeting>` as accepted by `updateMeeting`: every updatable field
optional (absent = `undefined` = not updated). `updateMeeting` reads exactly
these fields of its `updates` argument; an `id` member would be ignored. -/
structure MeetingUpdates where
  title : Option Str := none
  transcript : Option Str := none
  speakers : Option (List Speaker) := none
  tags : Option (List Str) := none
  category : Option Str := none
  archived : Option Bool := none
  duration : Option ℚ := none
  audioBlob : Option Blob := none
  date : Option Date := none
  summary : Option Summary := none

/-- The merge performed by `updateMeeting` (src/lib/db.ts): each provided
field overwrites the stored one (dates serialized, summary converted);
absent fields keep the stored value. Note the stored `audioBlob` is
written verbatim — `updateMeeting` does not go through `meetingToDB`. -/
def applyUpdates (ex : MeetingDB) (u : MeetingUpdates) : MeetingDB :=
  { ex with
    title := u.title.getD ex.title
    transcript := u.transcript.getD ex.transcript
    speakers := u.speakers.getD ex.speakers
    tags := u.tags.getD ex.tags
    category := u.category.getD ex.category
    archived := u.archived.getD ex.archived
    duration := u.duration.getD ex.duration
    audioBlob := match u.audioBlob with
      | some b => some b
      | none => ex.audioBlob
    date := match u.date with
      | some d => d.toISOString
      | none => ex.date
    summary := match u.summary with
      | some su => some (summaryToDB su)
      | none => ex.summary }

/-- `updateMeeting` (src/lib/db.ts): read, fail when absent, merge the
provided fields, refresh `updatedAt` to the current time, write back. -/
def updateMeeting (s : Store) (id : Str) (u : MeetingUpdates) (now : Date) :
    Except Str Store :=
  match getDB s id with
  | none => Except.error (("Meeting with id ".data) ++ id ++ (" not found".data))
  | some ex =>
      Except.ok (putDB s { applyUpdates ex u with updatedAt := now.toISOString })

/-- `archiveMeeting` (src/lib/db.ts): `updateMeeting(id, {archived: true, audioBlob: new Blob()})`. -/
def archiveMeeting (s : Store) (id : Str) (now : Date) : Except Str Store :=
  updateMeeting s id { archived := some true, audioBlob := some [] } now

/-- JavaScript `toLowerCase`, character-wise. -/
def toLowerStr (s : Str) : Str := s.map Char.toLower

/-- JavaScript `hay.includes(needle)`: substring containment. -/
def strIncludes (hay needle : Str) : Bool := decide (needle <:+: hay)

/-- The filter predicate of `searchMeetings` (src/lib/db.ts): the lowercased
query occurs in the lowercased title, transcript, some tag, the summary's
executive text, or some summary key point. -/
def meetingMatches (query : Str) (m : Meeting) : Bool :=
  let lowerQuery := toLowerStr query
  strIncludes (toLowerStr m.title) lowerQuery ||
  strIncludes (toLowerStr m.transcript) lowerQuery ||
  m.tags.any (fun tag => strIncludes (toLowerStr tag) lowerQuery) ||
  (match m.summary with
   | some su =>
       strIncludes (toLowerStr su.executive) lowerQuery ||
       su.keyPoints.any (fun kp => strIncludes (toLowerStr kp) lowerQuery)
   | none => false)

/-- `searchMeetings` (src/lib/db.ts): filter `getAllMeetings` by the match
predicate (order preserved). -/
def searchMeetings (s : Store) (query : Str) : List Meeting :=
  (getAllMeetings s).filter (meetingMatches query)

/-- `db.get('costs', month)`. -/
def getCost (cs : CostStore) (month : Str) : Option CostTrackingDB :=
  lookupBy (fun c => c.month) cs month

/-- `db.put('costs', rec)`. -/
def putCost (cs : CostStore) (c : CostTrackingDB) : CostStore :=
  upsertBy (fun c => c.month) cs c

/-- `updateCostTracking` (src/lib/db.ts): accumulate into the month bucket,
or create it on the first event of the month. Note that in the existing-record
branch `totalCost` is recomputed as the sum of the four cost summands, exactly
as written in the source. -/
def updateCostTracking (cs : CostStore) (month : Str)
    (transcriptionCost summarizationCost : ℚ) (now : Date) : CostStore :=
  match getCost cs month with
  | some existing =>
      putCost cs
        { existing with
          transcriptionCost := existing.transcriptionCost + transcriptionCost
          summarizationCost := existing.summarizationCost + summarizationCost
          meetingCount := existing.meetingCount + 1
          totalCost := existing.transcriptionCost + existing.summarizationCost +
            transcriptionCost + summarizationCost
          lastUpdated := now.toISOString }
  | none =>
      putCost cs
        { month := month
          transcriptionCost := transcriptionCost
          summarizationCost := summarizationCost
          meetingCount := 1
          totalCost := transcriptionCost + summarizationCost
          lastUpdated := now.toISOString }

/-- Cost kind accepted by `logCost`: 'transcription' | 'summarization'. -/
inductive CostKind
  | transcription
  | summarization
deriving DecidableEq, Repr

/-- `logCost` (src/lib/costs.ts): route the amount to the matching kind and
delegate to `updateCostTracking`. The `YYYY-MM` month key the code derives
from the clock is passed in as `month`; the meeting id is only used for the
diagnostic console line (elided). -/
def logCost (cs : CostStore) (meetingId : Str) (kind : CostKind) (amount : ℚ)
    (month : Str) (now : Date) : CostStore :=
  let transcriptionCost := if kind = CostKind.transcription then amount else 0
  let summarizationCost := if kind = CostKind.summarization then amount else 0
  let _ := meetingId
  updateCostTracking cs month transcriptionCost summarizationCost now

/-- `cleanTranscriptForExport` helper: replace `\r\n` by `\n`
(regex `/\r\n/g`). -/
def replaceCRLF : Str → Str
  | [] => []
  | '\r' :: '\n' :: rest => '\n' :: replaceCRLF rest
  | c :: rest => c :: replaceCRLF rest

/-- `cleanTranscriptForExport` helper: collapse runs of three or more `\n`
into exactly two (regex `/\n{3,}/g` replaced by `\n\n`); `count` is the
number of newlines kept at the end of the output so far. -/
def collapseNLAux (count : Nat) : Str → Str
  | [] => []
  | c :: rest =>
      if c = '\n' then
        if 2 ≤ count then collapseNLAux count rest
        else '\n' :: collapseNLAux (count + 1) rest
      else c :: collapseNLAux 0 rest

/-- JavaScript `String.prototype.trim` (the practically occurring whitespace
characters: space, tab, CR, LF — `Char.isWhitespace`). -/
def trimStr (s : Str) : Str :=
  ((s.dropWhile Char.isWhitespace).reverse.dropWhile Char.isWhitespace).reverse

/-- `cleanTranscriptForExport` (src/lib/preprocessing.ts): normalize line
breaks, collapse blank-line runs, trim every line, re-join, trim. -/
def cleanTranscriptForExport (t : Str) : Str :=
  trimStr
    (List.intercalate (['\n'])
      (((collapseNLAux 0 (replaceCRLF t)).splitOn '\n').map trimStr))

/-- The `metadata` object of an `ExportedMeeting` (type declarations):
the non-binary meeting fields, dates as ISO strings. -/
structure ExportedMeta where
  id : Str
  title : Str
  date : ISOStr
  duration : ℚ
  speakers : List Speaker
  tags : List Str
  category : Str
  archived : Bool
  createdAt : ISOStr
  updatedAt : ISOStr
deriving DecidableEq, Repr

/-- `ExportedMeeting` (type declarations): the content of `metadata.json`. -/
structure ExportedMeeting where
  metadata : ExportedMeta
  transcript : Str
  summary : Option SummaryDB
  hasAudio : Bool
deriving DecidableEq, Repr

/-- A single-meeting export archive: the ZIP produced by `exportMeeting`.
`audio` is the optional `audio.webm` entry, `transcriptTxt` the
`transcript.txt` entry, `summaryMdIncluded` records whether a `summary.md`
entry is present (its rendered markdown uses the locale-dependent
`toLocaleDateString`/`toLocaleString` and is never read back by the importer,
so its text is not modelled), `metadata` the parsed `metadata.json` entry
(`none` models an archive with that entry missing). -/
structure ZipFile where
  audio : Option Blob
  transcriptTxt : Str
  summaryMdIncluded : Bool
  metadata : Option ExportedMeeting
deriving DecidableEq, Repr

/-- The `ExportedMeeting` value both exporters serialize into
`metadata.json`. -/
def mkExportedMeeting (m : Meeting) : ExportedMeeting :=
  { metadata :=
      { id := m.id
        title := m.title
        date := m.date.toISOString
        duration := m.duration
        speakers := m.speakers
        tags := m.tags
        category := m.category
        archived := m.archived
        createdAt := m.createdAt.toISOString
        updatedAt := m.updatedAt.toISOString }
    transcript := m.transcript
    summary := m.summary.map summaryToDB
    hasAudio := !m.archived && !m.audioBlob.isEmpty }

/-- The archive `exportMeeting` builds for meeting `m`: `audio.webm` only
when not archived and the audio has non-zero size; the cleaned transcript;
`summary.md` when a summary exists; the metadata document. -/
def exportZipOf (m : Meeting) : ZipFile :=
  { audio := if !m.archived && !m.audioBlob.isEmpty then some m.audioBlob else none
    transcriptTxt := cleanTranscriptForExport m.transcript
    summaryMdIncluded := m.summary.isSome
    metadata := some (mkExportedMeeting m) }

/-- `exportMeeting` (export/import module): look the meeting up, fail with
NotFound when absent, otherwise build the archive. -/
def exportMeeting (s : Store) (meetingId : Str) : Except Str ZipFile :=
  match getDB s meetingId with
  | none =>
      Except.error (("Meeting with id ".data) ++ meetingId ++ (" not found".data))
  | some db =>
      Except.ok (exportZipOf (dbToMeeting db))

/-- `lowercase-alphanumeric` test of the slug regex class `[a-z0-9]`. -/
def isSlugChar (c : Char) : Bool :=
  ('a' ≤ c && c ≤ 'z') || ('0' ≤ c && c ≤ '9')

/-- Slug helper: regex `/[^a-z0-9]+/g` replaced by `-` — every maximal run
of characters outside `[a-z0-9]` becomes a single dash. `inRun` says whether
the previous character was part of such a run. -/
def slugCollapseAux (inRun : Bool) : Str → Str
  | [] => []
  | c :: rest =>
      if isSlugChar c then c :: slugCollapseAux false rest
      else if inRun then slugCollapseAux true rest
      else '-' :: slugCollapseAux true rest

/-- Slug helper: regex `/^-|-$/g` replaced by the empty string — one leading
and one trailing dash removed (after the run collapse at most one of each
can occur). -/
def dropLeadDash : Str → Str
  | '-' :: rest => rest
  | s => s

/-- The title slug of the bulk-export folder name:
`.toLowerCase().replace(/[^a-z0-9]+/g, '-').replace(/^-|-$/g, '').substring(0, 50)`. -/
def slugify (title : Str) : Str :=
  let collapsed := slugCollapseAux false (toLowerStr title)
  let noLead := dropLeadDash collapsed
  let noTrail := (dropLeadDash noLead.reverse).reverse
  noTrail.take 50

/-- Bulk-export folder name `YYYY-MM-DD_titleSlug_idPrefix8`: the calendar
date prefix of `toISOString().split('T')[0]` is determined by (and determines)
the UTC day index `ms / 86400000`, so the day index represents it. -/
structure FolderName where
  dayIdx : Int
  slug : Str
  idShort : Str
deriving DecidableEq, Repr

/-- One per-meeting folder of the bulk export archive. -/
structure BulkEntry where
  folderName : FolderName
  audio : Option Blob
  transcriptTxt : Str
  summaryMdIncluded : Bool
  metadata : ExportedMeeting
deriving DecidableEq, Repr

/-- The bulk export archive: one folder per meeting plus the top-level
`README.txt`, which is represented by the meeting count it reports (its
fixed prose and the environment export timestamp are elided). -/
structure BulkArchive where
  entries : List BulkEntry
  readmeCount : Nat
deriving DecidableEq, Repr

/-- The folder built for one meeting by `exportAllMeetings`. -/
def mkBulkEntry (m : Meeting) : BulkEntry :=
  { folderName :=
      { dayIdx := m.date.toISOString.ms.fdiv 86400000
        slug := slugify m.title
        idShort := m.id.take 8 }
    audio := if !m.archived && !m.audioBlob.isEmpty then some m.audioBlob else none
    transcriptTxt := cleanTranscriptForExport m.transcript
    summaryMdIncluded := m.summary.isSome
    metadata := mkExportedMeeting m }

/-- `exportAllMeetings` (export/import module): reject an empty store with
the explicit error, otherwise one folder per meeting (in `getAllMeetings`
order) plus the readme. The progress observer is elided. -/
def exportAllMeetings (s : Store) : Except Str BulkArchive :=
  let meetings := getAllMeetings s
  if meetings.length = 0 then Except.error ("No meetings to export".data)
  else
    Except.ok
      { entries := meetings.map mkBulkEntry
        readmeCount := meetings.length }

/-- Duplicate policy of `importMeeting`: 'replace' | 'keep-both' | 'skip'. -/
inductive DuplicatePolicy
  | replace
  | keepBoth
  | skip
deriving DecidableEq, Repr

/-- The `Meeting` object `importMeeting` reconstructs from the (possibly
id-rewritten) metadata document and the archive's audio entry: the audio is
read only when the entry exists and the metadata's `hasAudio` flag is set,
otherwise it is the empty blob. -/
def buildImportMeeting (em : ExportedMeeting) (z : ZipFile) : Meeting :=
  let audioBlob : Blob :=
    match z.audio with
    | some b => if em.hasAudio then b else []
    | none => []
  { id := em.metadata.id
    title := em.metadata.title
    date := parseDate em.metadata.date
    duration := em.metadata.duration
    audioBlob := audioBlob
    transcript := em.transcript
    summary := em.summary.map dbToSummary
    speakers := em.metadata.speakers
    tags := em.metadata.tags
    category := em.metadata.category
    archived := em.metadata.archived
    createdAt := parseDate em.metadata.createdAt
    updatedAt := parseDate em.metadata.updatedAt }

/-- `importMeeting` (export/import module): fail when `metadata.json` is
missing; on an id collision apply the duplicate policy (`skip` returns the
existing id without writing, `keep-both` rewrites the metadata id to the
freshly generated `freshId` from `crypto.randomUUID()`, `replace` keeps the
colliding id); reconstruct the meeting and persist it with `saveMeeting`.
Returns the new store and the imported meeting id. -/
def importMeeting (s : Store) (z : ZipFile) (onDuplicate : DuplicatePolicy)
    (freshId : Str) : Except Str (Store × Str) :=
  match z.metadata with
  | none => Except.error ("Invalid export file: metadata.json not found".data)
  | some em =>
      match getDB s em.metadata.id with
      | some existing =>
          match onDuplicate with
          | DuplicatePolicy.skip => Except.ok (s, existing.id)
          | DuplicatePolicy.keepBoth =>
              let emNew := { em with metadata := { em.metadata with id := freshId } }
              let m := buildImportMeeting emNew z
              Except.ok (saveMeeting s m, m.id)
          | DuplicatePolicy.replace =>
              let m := buildImportMeeting em z
              Except.ok (saveMeeting s m, m.id)
      | none =>
          let m := buildImportMeeting em z
          Except.ok (saveMeeting s m, m.id)

/-- `WhisperSegment` (type declarations). `stop` is the source's `end`
(a Lean keyword). -/
structure WhisperSegment where
  id : Int
  seek : Int
  start : ℚ
  stop : ℚ
  text : Str
  tokens : List Int
  temperature : ℚ
  avg_logprob : ℚ
  compressionRat : ℚ
  no_speech_prob : ℚ
deriving DecidableEq, Repr

/-- `WhisperResponse` (type declarations): `segments` is optional. -/
structure WhisperResponse where
  text : Str
  segments : Option (List WhisperSegment)
deriving DecidableEq, Repr

/-- The per-segment timestamp shift of `transcribeChunkedAudio`:
`{...segment, start: segment.start + cumulativeTime, end: segment.end + cumulativeTime}`. -/
def shiftSegment (cumulativeTime : ℚ) (sg : WhisperSegment) : WhisperSegment :=
  { sg with start := sg.start + cumulativeTime, stop := sg.stop + cumulativeTime }

/-- The segment-combining loop of `transcribeChunkedAudio`: shift each
chunk's segments by the running `cumulativeTime`, then advance
`cumulativeTime` to the shifted end of the chunk's last segment (unchanged
when the chunk has no segments or the `segments` field is absent), and
concatenate (`results.flatMap(r => r.segments || [])`). -/
def combineSegments (cumulativeTime : ℚ) :
    List WhisperResponse → List WhisperSegment
  | [] => []
  | r :: rest =>
      match r.segments with
      | none => combineSegments cumulativeTime rest
      | some segs =>
          let shifted := segs.map (shiftSegment cumulativeTime)
          let cum2 :=
            match shifted.getLast? with
            | some lastSeg => lastSeg.stop
            | none => cumulativeTime
          shifted ++ combineSegments cum2 rest

/-- The pure combination step of `transcribeChunkedAudio` (whisper module),
applied to the per-chunk API results (the API calls themselves and the
progress callbacks are environment and are elided): texts joined with a
space, segments shifted and concatenated with `cumulativeTime` starting
at 0. -/
def transcribeChunkedCombine (results : List WhisperResponse) : WhisperResponse :=
  { text := List.intercalate (" ".data) (results.map (fun r => r.text))
    segments := some (combineSegments 0 results) }

/-- The flattened timestamp sequence of a segment list, in order:
start₁, end₁, start₂, end₂, …. -/
def segTimestamps (segs : List WhisperSegment) : List ℚ :=
  segs.flatMap (fun sg => [sg.start, sg.stop])

/-- Occurrence predicate of the search-completeness claim, stated in the
claim's own words: the query occurs case-insensitively as a substring of the
title, the transcript, some tag, the summary's executive text, or some
summary key point. (Case-insensitive containment is containment of the
lowercased strings.) This is the specification-side counterpart compared
against the code's `meetingMatches`. -/
def queryOccurs (q : Str) (m : Meeting) : Prop :=
  toLowerStr q <:+: toLowerStr m.title ∨
  toLowerStr q <:+: toLowerStr m.transcript ∨
  (∃ tag ∈ m.tags, toLowerStr q <:+: toLowerStr tag) ∨
  (∃ su, m.summary = some su ∧
    (toLowerStr q <:+: toLowerStr su.executive ∨
     ∃ kp ∈ su.keyPoints, toLowerStr q <:+: toLowerStr kp))

/-- A concrete meeting used for the concrete evaluations below: not
archived, with a one-byte audio payload. -/
def sampleMeeting : Meeting :=
  { id := "a".data
    title := "T".data
    date := ⟨5⟩
    duration := 0
    audioBlob := [7]
    transcript := "x".data
    summary := none
    speakers := []
    tags := []
    category := "general".data
    archived := false
    createdAt := ⟨0⟩
    updatedAt := ⟨0⟩ }

/-- A one-meeting store. -/
def sampleStore : Store := [meetingToDB sampleMeeting]

/-- A stored record with `archived = true` and a non-empty audio payload —
exactly the state `updateMeeting(id, {archived: true})` produces from
`sampleMeeting` (see the C1 theorem). -/
def sampleBadDB : MeetingDB :=
  { meetingToDB sampleMeeting with archived := true, audioBlob := some [7] }

/-- An import archive whose metadata id collides with `sampleStore`. -/
def sampleZip : ZipFile :=
  { audio := some [7]
    transcriptTxt := []
    summaryMdIncluded := false
    metadata := some (mkExportedMeeting sampleMeeting) }

/-- A whisper segment with all-zero timestamps. -/
def sampleSeg : WhisperSegment :=
  { id := 0, seek := 0, start := 0, stop := 0, text := [], tokens := []
    temperature := 0, avg_logprob := 0, compressionRat := 0, no_speech_prob := 0 }

/-- Two one-segment chunks, timestamps all zero. -/
def sampleChunks : List WhisperResponse :=
  [⟨"a".data, some [sampleSeg]⟩, ⟨"b".data, some [sampleSeg]⟩]

/-! ## Helper lemmas about the keyed collections and the serialization -/

theorem find?_filter_of_ne_key {α : Type} (key : α → Str) (t : List α) (x : α)
    (k : Str) (h : k ≠ key x) :
    List.find? (fun z => key z == k) (List.filter (fun y => !(key y == key x)) t)
      = List.find? (fun z => key z == k) t := by
  induction t with
  | nil => rfl
  | cons y t ih =>
      rw [List.filter_cons]
      by_cases h1 : key y = key x
      · have hdrop : (!(key y == key x)) = false := by simp [h1]
        have hky : (key y == k) = false := by simp [h1, Ne.symm h]
        rw [hdrop]
        simp only [Bool.false_eq_true, if_false]
        rw [ih, List.find?_cons, hky]
      · have hkeep : (!(key y == key x)) = true := by simp [h1]
        rw [hkeep]
        simp only [if_true]
        rw [List.find?_cons, List.find?_cons]
        cases hky : (key y == k) <;> simp [ih]

theorem lookupBy_upsertBy_self {α : Type} (key : α → Str) (s : List α) (x : α) :
    lookupBy key (upsertBy key s x) (key x) = some x := by
  unfold lookupBy upsertBy
  rw [List.find?_append]
  have h1 : List.find? (fun z => key z == key x)
      (List.filter (fun y => !(key y == key x)) s) = none := by
    rw [List.find?_eq_none]
    intro a ha
    have hmem := (List.mem_filter.mp ha).2
    simp at hmem ⊢
    exact hmem
  have h2 : List.find? (fun z => key z == key x) [x] = some x := by
    simp [List.find?_cons]
  rw [h1, h2]
  rfl

theorem lookupBy_upsertBy_ne {α : Type} (key : α → Str) (s : List α) (x : α)
    (k : Str) (h : k ≠ key x) :
    lookupBy key (upsertBy key s x) k = lookupBy key s k := by
  unfold lookupBy upsertBy
  rw [List.find?_append, find?_filter_of_ne_key key s x k h]
  have hx : List.find? (fun z => key z == k) [x] = none := by
    have hne : (key x == k) = false := by simp [Ne.symm h]
    simp [List.find?_cons, hne]
  rw [hx, Option.or_none]

theorem lookupBy_eq_some {α : Type} {key : α → Str} {s : List α} {k : Str}
    {r : α} (h : lookupBy key s k = some r) : r ∈ s ∧ key r = k := by
  refine ⟨List.mem_of_find?_eq_some h, ?_⟩
  have := List.find?_some h
  simpa using this

theorem getDB_putDB_self (s : Store) (r : MeetingDB) :
    getDB (putDB s r) r.id = some r := by
  unfold getDB putDB
  exact lookupBy_upsertBy_self (fun r => r.id) s r

theorem getDB_putDB_ne (s : Store) (r : MeetingDB) (k : Str) (h : k ≠ r.id) :
    getDB (putDB s r) k = getDB s k := by
  unfold getDB putDB
  exact lookupBy_upsertBy_ne (fun r => r.id) s r k h

theorem getDB_eq_some {s : Store} {k : Str} {r : MeetingDB}
    (h : getDB s k = some r) : r ∈ s ∧ r.id = k := by
  unfold getDB at h
  exact lookupBy_eq_some h

theorem getCost_putCost_self (cs : CostStore) (c : CostTrackingDB) :
    getCost (putCost cs c) c.month = some c := by
  unfold getCost putCost
  exact lookupBy_upsertBy_self (fun c => c.month) cs c

theorem parseDate_toISOString (d : Date) : parseDate d.toISOString = d := rfl

theorem toISOString_parseDate (s : ISOStr) : (parseDate s).toISOString = s := rfl

theorem dbToSummary_summaryToDB (s : Summary) : dbToSummary (summaryToDB s) = s := rfl

theorem summaryToDB_dbToSummary (s : SummaryDB) : summaryToDB (dbToSummary s) = s := rfl

/-- The serialization round trip, as a reusable lemma: converting to the
stored form and back reproduces the meeting except that an archived
meeting's audio comes back empty. -/
theorem roundtrip_meeting (m : Meeting) :
    dbToMeeting (meetingToDB m)
      = { m with audioBlob := if m.archived then [] else m.audioBlob } := by
  cases hs : m.summary with
  | none => cases ha : m.archived <;>
      simp [dbToMeeting, meetingToDB, hs, ha, parseDate, Date.toISOString]
  | some su => cases ha : m.archived <;>
      simp [dbToMeeting, meetingToDB, hs, ha, parseDate, Date.toISOString,
        dbToSummary_summaryToDB]

/-! ## Claim theorems -/

/-- C3: for every Meeting `m` (all dates of the model are valid),
`dbToMeeting (meetingToDB m)` equals `m` in every field — including the
nested summary and its `generatedAt` — except that when `m.archived = true`
the audio field comes back as the empty payload regardless of `m`'s audio. -/
theorem storage_roundtrip_C3 (m : Meeting) :
    dbToMeeting (meetingToDB m)
      = { m with audioBlob := if m.archived then [] else m.audioBlob } :=
  roundtrip_meeting m

/-- C1 (demonstration of the code bug): starting from the empty store, save
a non-archived meeting with audio payload `[7]`, then apply
`updateMeeting(id, {archived: true})`. The resulting stored record has
`archived = true` and still carries `audioBlob = some [7]` — `updateMeeting`
merges the provided fields verbatim and does not clear the audio, violating
the documented invariant that `archived == true` implies the audio payload
is empty/absent. -/
theorem update_archived_keeps_audio_C1 :
    (updateMeeting (saveMeeting [] sampleMeeting) ("a".data)
        { archived := some true } ⟨9⟩).map
      (fun s1 => (getDB s1 ("a".data)).map (fun r => (r.archived, r.audioBlob)))
    = Except.ok (some (true, some [7])) := rfl

/-- C10: searching with the empty query returns exactly `getAllMeetings`
(every string contains the empty substring, and `filter` preserves the
descending-date order). -/
theorem search_empty_query_C10 (s : Store) :
    searchMeetings s [] = getAllMeetings s := by
  unfold searchMeetings
  apply List.filter_eq_self.mpr
  intro m _
  have hA : ([] : Str) <:+: toLowerStr m.title := ⟨[], toLowerStr m.title, by simp⟩
  simp [meetingMatches, strIncludes, hA, toLowerStr]

/-- The code's boolean match predicate coincides with the claim's
occurrence predicate. -/
theorem meetingMatches_iff_queryOccurs (q : Str) (m : Meeting) :
    meetingMatches q m = true ↔ queryOccurs q m := by
  unfold meetingMatches queryOccurs strIncludes
  cases hs : m.summary with
  | none =>
      simp only [hs]
      simp
      tauto
  | some su =>
      simp only [hs]
      simp [List.any_eq_true]
      aesop

/-- C7: for every store and non-empty query `q`, a stored meeting (an
element of `getAllMeetings`) is in the result of `searchMeetings` exactly
when `q` occurs case-insensitively as a substring of its title, transcript,
some tag, its summary's executive text, or one of its summary's key points
(`queryOccurs`); in particular a stored meeting in which `q` occurs in none
of those fields is not in the result. (The code does not special-case the
empty query; the hypothesis mirrors the claim's quantification.) -/
theorem search_completeness_C7 (s : Store) (q : Str) (m : Meeting)
    (_hq : q ≠ []) (hm : m ∈ getAllMeetings s) :
    m ∈ searchMeetings s q ↔ queryOccurs q m := by
  unfold searchMeetings
  rw [List.mem_filter, meetingMatches_iff_queryOccurs]
  simp [hm]

/-- Witness for C7 at a concrete store and query. -/
theorem search_completeness_C7_witness :
    dbToMeeting (meetingToDB sampleMeeting) ∈ searchMeetings sampleStore ("t".data)
      ↔ queryOccurs ("t".data) (dbToMeeting (meetingToDB sampleMeeting)) :=
  search_completeness_C7 sampleStore ("t".data)
    (dbToMeeting (meetingToDB sampleMeeting)) (by decide) (by decide)

/-- C6: when `id` is present, `updateMeeting(id, {title: x})` succeeds and
the store afterwards holds, at `id`, exactly the pre-update record with only
`title` replaced by `x` and `updatedAt` refreshed to the current time; every
other stored field is unchanged. -/
theorem update_title_frame_C6 (s : Store) (i x : Str) (now : Date)
    (ex : MeetingDB) (h : getDB s i = some ex) :
    updateMeeting s i { title := some x } now
        = Except.ok (putDB s { ex with title := x, updatedAt := now.toISOString })
      ∧ getDB (putDB s { ex with title := x, updatedAt := now.toISOString }) i
        = some { ex with title := x, updatedAt := now.toISOString } := by
  have hid : ex.id = i := (getDB_eq_some h).2
  constructor
  · unfold updateMeeting
    rw [h]
    rfl
  · rw [← hid]
    exact getDB_putDB_self s _

/-- Witness for C6 at a concrete store. -/
theorem update_title_frame_C6_witness :
    updateMeeting sampleStore ("a".data) { title := some ("X".data) } ⟨9⟩
        = Except.ok (putDB sampleStore
            { meetingToDB sampleMeeting with title := "X".data, updatedAt := Date.toISOString ⟨9⟩ })
      ∧ getDB (putDB sampleStore
            { meetingToDB sampleMeeting with title := "X".data, updatedAt := Date.toISOString ⟨9⟩ }) ("a".data)
        = some { meetingToDB sampleMeeting with title := "X".data, updatedAt := Date.toISOString ⟨9⟩ } :=
  update_title_frame_C6 sampleStore ("a".data) ("X".data) ⟨9⟩
    (meetingToDB sampleMeeting) rfl

theorem logCost_transcription (cs : CostStore) (mid : Str) (amt : ℚ)
    (mo : Str) (t : Date) :
    logCost cs mid CostKind.transcription amt mo t
      = updateCostTracking cs mo amt 0 t := by
  unfold logCost
  simp

theorem updateCostTracking_fresh (cs : CostStore) (mo : Str) (tc sc : ℚ)
    (t : Date) (h : getCost cs mo = none) :
    updateCostTracking cs mo tc sc t
      = putCost cs { month := mo
                     transcriptionCost := tc
                     summarizationCost := sc
                     meetingCount := 1
                     totalCost := tc + sc
                     lastUpdated := t.toISOString } := by
  unfold updateCostTracking
  rw [h]

theorem updateCostTracking_existing (cs : CostStore) (mo : Str) (tc sc : ℚ)
    (t : Date) (ex : CostTrackingDB) (h : getCost cs mo = some ex) :
    updateCostTracking cs mo tc sc t
      = putCost cs { ex with
          transcriptionCost := ex.transcriptionCost + tc
          summarizationCost := ex.summarizationCost + sc
          meetingCount := ex.meetingCount + 1
          totalCost := ex.transcriptionCost + ex.summarizationCost + tc + sc
          lastUpdated := t.toISOString } := by
  unfold updateCostTracking
  rw [h]

/-- C5: starting from a state with no cost record for month `mo`, three
sequential `logCost` calls of kind transcription with amount 0.10 in that
month produce a cost record with `transcriptionCost = 0.30`,
`meetingCount = 3`, `summarizationCost = 0` and `totalCost = 0.30`
(amounts are exact rationals, see the module comment). -/
theorem cost_accumulation_C5 (cs : CostStore) (mo : Str)
    (mid1 mid2 mid3 : Str) (t1 t2 t3 : Date)
    (h : getCost cs mo = none) :
    getCost (logCost (logCost (logCost cs mid1 CostKind.transcription (1/10) mo t1)
        mid2 CostKind.transcription (1/10) mo t2)
        mid3 CostKind.transcription (1/10) mo t3) mo
      = some { month := mo, transcriptionCost := 3/10, summarizationCost := 0,
               meetingCount := 3, totalCost := 3/10,
               lastUpdated := t3.toISOString } := by
  rw [logCost_transcription, logCost_transcription, logCost_transcription]
  rw [updateCostTracking_fresh cs mo (1/10) 0 t1 h]
  have g1 := getCost_putCost_self cs
    { month := mo
      transcriptionCost := 1/10
      summarizationCost := 0
      meetingCount := 1
      totalCost := 1/10 + 0
      lastUpdated := t1.toISOString }
  rw [updateCostTracking_existing _ mo (1/10) 0 t2 _ g1]
  have g2 := getCost_putCost_self
    (putCost cs
      { month := mo
        transcriptionCost := 1/10
        summarizationCost := 0
        meetingCount := 1
        totalCost := 1/10 + 0
        lastUpdated := t1.toISOString })
    { month := mo
      transcriptionCost := 1/10 + 1/10
      summarizationCost := 0 + 0
      meetingCount := 1 + 1
      totalCost := 1/10 + 0 + (1/10) + 0
      lastUpdated := t2.toISOString }
  rw [updateCostTracking_existing _ mo (1/10) 0 t3 _ g2]
  have g3 := getCost_putCost_self
    (putCost
      (putCost cs
        { month := mo
          transcriptionCost := 1/10
          summarizationCost := 0
          meetingCount := 1
          totalCost := 1/10 + 0
          lastUpdated := t1.toISOString })
      { month := mo
        transcriptionCost := 1/10 + 1/10
        summarizationCost := 0 + 0
        meetingCount := 1 + 1
        totalCost := 1/10 + 0 + (1/10) + 0
        lastUpdated := t2.toISOString })
    { month := mo
      transcriptionCost := 1/10 + 1/10 + (1/10)
      summarizationCost := 0 + 0 + 0
      meetingCount := 1 + 1 + 1
      totalCost := 1/10 + 1/10 + (0 + 0) + (1/10) + 0
      lastUpdated := t3.toISOString }
  rw [g3]
  norm_num

/-- Witness for C5: the three calls against the empty cost store. -/
theorem cost_accumulation_C5_witness :
    getCost (logCost (logCost (logCost [] ("m1".data) CostKind.transcription (1/10)
        ("2025-10".data) ⟨1⟩)
        ("m2".data) CostKind.transcription (1/10) ("2025-10".data) ⟨2⟩)
        ("m3".data) CostKind.transcription (1/10) ("2025-10".data) ⟨3⟩) ("2025-10".data)
      = some { month := "2025-10".data, transcriptionCost := 3/10,
               summarizationCost := 0, meetingCount := 3, totalCost := 3/10,
               lastUpdated := Date.toISOString ⟨3⟩ } :=
  cost_accumulation_C5 [] ("2025-10".data) ("m1".data) ("m2".data) ("m3".data)
    ⟨1⟩ ⟨2⟩ ⟨3⟩ rfl

/-- C9: bulk export of an empty store fails with the explicit
'No meetings to export' error and produces no archive; bulk export of any
non-empty store does not fail. -/
theorem bulk_export_empty_C9 (s : Store) :
    (s = [] → exportAllMeetings s = Except.error ("No meetings to export".data))
      ∧ (s ≠ [] → (exportAllMeetings s).isOk = true) := by
  constructor
  · rintro rfl
    rfl
  · intro hs
    unfold exportAllMeetings
    have hlen : (getAllMeetings s).length = s.length := by
      simp [getAllMeetings, sortByDateDesc, List.length_insertionSort]
    have hne : ¬(getAllMeetings s).length = 0 := by
      rw [hlen]
      exact fun hh => hs (List.length_eq_zero.mp hh)
    rw [if_neg hne]
    rfl

/-- Witness for C9: the empty store and a one-meeting store. -/
theorem bulk_export_empty_C9_witness :
    exportAllMeetings [] = Except.error ("No meetings to export".data)
      ∧ (exportAllMeetings sampleStore).isOk = true :=
  ⟨(bulk_export_empty_C9 []).1 rfl, (bulk_export_empty_C9 sampleStore).2 (by decide)⟩

/-- C4: importing an archive whose metadata id collides with an existing
stored meeting: with policy `skip`, no write happens (the store is returned
unchanged) and the existing id is returned; with policy `keep-both`, the
imported content is stored under the freshly generated id (distinct from the
colliding id, assuming the generated id is fresh for the store) and the
existing record is unchanged; with policy `replace`, the record at the
existing id is overwritten with the imported content. -/
theorem import_duplicate_policies_C4
    (s : Store) (z : ZipFile) (em : ExportedMeeting) (ex : MeetingDB) (freshId : Str)
    (hm : z.metadata = some em)
    (hex : getDB s em.metadata.id = some ex)
    (hfresh : ∀ r ∈ s, r.id ≠ freshId) :
    importMeeting s z DuplicatePolicy.skip freshId = Except.ok (s, em.metadata.id)
    ∧ importMeeting s z DuplicatePolicy.keepBoth freshId
        = Except.ok (putDB s (meetingToDB (buildImportMeeting
            { em with metadata := { em.metadata with id := freshId } } z)), freshId)
    ∧ getDB (putDB s (meetingToDB (buildImportMeeting
          { em with metadata := { em.metadata with id := freshId } } z))) em.metadata.id
        = some ex
    ∧ freshId ≠ em.metadata.id
    ∧ importMeeting s z DuplicatePolicy.replace freshId
        = Except.ok (putDB s (meetingToDB (buildImportMeeting em z)), em.metadata.id)
    ∧ getDB (putDB s (meetingToDB (buildImportMeeting em z))) em.metadata.id
        = some (meetingToDB (buildImportMeeting em z)) := by
  obtain ⟨hmem, hid⟩ := getDB_eq_some hex
  have hne : freshId ≠ em.metadata.id := fun hc => hfresh ex hmem (hid.trans hc.symm)
  refine ⟨?_, ?_, ?_, hne, ?_, ?_⟩
  · unfold importMeeting
    rw [hm]
    dsimp only
    rw [hex, ← hid]
  · unfold importMeeting
    rw [hm]
    dsimp only
    rw [hex]
    rfl
  · have hstep := getDB_putDB_ne s
      (meetingToDB (buildImportMeeting
        { em with metadata := { em.metadata with id := freshId } } z))
      em.metadata.id (Ne.symm hne)
    rw [hstep]
    exact hex
  · unfold importMeeting
    rw [hm]
    dsimp only
    rw [hex]
    rfl
  · exact getDB_putDB_self s (meetingToDB (buildImportMeeting em z))

/-- Witness for C4 at a concrete store, archive and fresh id. -/
theorem import_duplicate_policies_C4_witness :
    importMeeting sampleStore sampleZip DuplicatePolicy.skip ("f".data)
        = Except.ok (sampleStore, (mkExportedMeeting sampleMeeting).metadata.id)
    ∧ importMeeting sampleStore sampleZip DuplicatePolicy.keepBoth ("f".data)
        = Except.ok (putDB sampleStore (meetingToDB (buildImportMeeting
            { mkExportedMeeting sampleMeeting with
              metadata := { (mkExportedMeeting sampleMeeting).metadata with id := "f".data } }
            sampleZip)), "f".data)
    ∧ getDB (putDB sampleStore (meetingToDB (buildImportMeeting
          { mkExportedMeeting sampleMeeting with
            metadata := { (mkExportedMeeting sampleMeeting).metadata with id := "f".data } }
          sampleZip))) (mkExportedMeeting sampleMeeting).metadata.id
        = some (meetingToDB sampleMeeting)
    ∧ ("f".data) ≠ (mkExportedMeeting sampleMeeting).metadata.id
    ∧ importMeeting sampleStore sampleZip DuplicatePolicy.replace ("f".data)
        = Except.ok (putDB sampleStore (meetingToDB (buildImportMeeting
            (mkExportedMeeting sampleMeeting) sampleZip)),
            (mkExportedMeeting sampleMeeting).metadata.id)
    ∧ getDB (putDB sampleStore (meetingToDB (buildImportMeeting
          (mkExportedMeeting sampleMeeting) sampleZip)))
          (mkExportedMeeting sampleMeeting).metadata.id
        = some (meetingToDB (buildImportMeeting (mkExportedMeeting sampleMeeting) sampleZip)) :=
  import_duplicate_policies_C4 sampleStore sampleZip (mkExportedMeeting sampleMeeting)
    (meetingToDB sampleMeeting) ("f".data) rfl rfl (by decide)

theorem exportMeeting_ok (s : Store) (i : Str) (db : MeetingDB)
    (h : getDB s i = some db) :
    exportMeeting s i = Except.ok (exportZipOf (dbToMeeting db)) := by
  unfold exportMeeting
  rw [h]

theorem importMeeting_replace_ok (s : Store) (z : ZipFile) (em : ExportedMeeting)
    (ex : MeetingDB) (freshId : Str)
    (hm : z.metadata = some em) (hex : getDB s em.metadata.id = some ex) :
    importMeeting s z DuplicatePolicy.replace freshId
      = Except.ok (saveMeeting s (buildImportMeeting em z),
          (buildImportMeeting em z).id) := by
  unfold importMeeting
  rw [hm]
  dsimp only
  rw [hex]

theorem getMeeting_save (s : Store) (m : Meeting) (i : Str) (hi : m.id = i) :
    getMeeting (saveMeeting s m) i = some (dbToMeeting (meetingToDB m)) := by
  unfold getMeeting saveMeeting
  rw [← hi]
  have e : (meetingToDB m).id = m.id := rfl
  rw [← e, getDB_putDB_self]
  rfl

/-- Re-importing the archive `exportMeeting` builds for `m` yields, after
storage normalization, exactly `m` again — provided `m` satisfies the
archived-implies-empty-audio invariant. -/
theorem import_export_normalize (m : Meeting)
    (hm : m.archived = true → m.audioBlob = []) :
    dbToMeeting (meetingToDB (buildImportMeeting (mkExportedMeeting m)
      (exportZipOf m))) = m := by
  rw [roundtrip_meeting]
  obtain ⟨mid, title, date, duration, audioBlob, transcript, summary,
    speakers, tags, category, archived, createdAt, updatedAt⟩ := m
  cases archived with
  | true =>
      have ha : audioBlob = [] := hm rfl
      subst ha
      cases summary <;>
        simp [buildImportMeeting, mkExportedMeeting, exportZipOf,
          dbToSummary_summaryToDB, parseDate, Date.toISOString]
  | false =>
      cases audioBlob with
      | nil =>
          cases summary <;>
            simp [buildImportMeeting, mkExportedMeeting, exportZipOf,
              dbToSummary_summaryToDB, parseDate, Date.toISOString]
      | cons b bs =>
          cases summary <;>
            simp [buildImportMeeting, mkExportedMeeting, exportZipOf,
              dbToSummary_summaryToDB, parseDate, Date.toISOString]

/-- C2 (counterexample): `sampleBadDB` is a stored meeting with
`archived = true` and non-empty audio `[7]` (reachable via
`updateMeeting(id, {archived: true})`, see the C1 theorem). Exporting it and
re-importing with policy `replace` stores a meeting whose audio content is
empty, while the original's audio content is `[7]` — so the round trip does
not preserve every field besides `updatedAt` for every stored meeting. -/
theorem export_import_replace_C2_counterexample :
    ((exportMeeting [sampleBadDB] ("a".data)).bind
        (fun z => importMeeting [sampleBadDB] z DuplicatePolicy.replace ("f".data))).map
      (fun p => (getMeeting p.1 ("a".data)).map (fun m => m.audioBlob))
      = Except.ok (some [])
    ∧ (getMeeting [sampleBadDB] ("a".data)).map (fun m => m.audioBlob) = some [7] :=
  ⟨rfl, rfl⟩

/-- C2 (amended): for every stored meeting `db` that satisfies the
archived-implies-empty-audio invariant (which every record written by
`saveMeeting` satisfies), exporting it and importing the produced archive
with duplicate policy `replace` leaves a stored meeting under the same id
that is equal to the original in every field — audio compared as content
(absent audio equals the empty payload) — including `createdAt` and even
`updatedAt`. -/
theorem export_import_replace_roundtrip_C2
    (s : Store) (i : Str) (db : MeetingDB) (freshId : Str)
    (h : getDB s i = some db)
    (hinv : db.archived = true → db.audioBlob.getD [] = []) :
    ((exportMeeting s i).bind
        (fun z => importMeeting s z DuplicatePolicy.replace freshId)).map
      (fun p => (getMeeting p.1 i, p.2))
      = Except.ok (some (dbToMeeting db), i) := by
  have hid : db.id = i := (getDB_eq_some h).2
  have hm : (dbToMeeting db).archived = true → (dbToMeeting db).audioBlob = [] := by
    intro ha
    have hzero := hinv ha
    cases hb : db.audioBlob with
    | none => simp [dbToMeeting, hb]
    | some b =>
        rw [hb] at hzero
        simp at hzero
        simp [dbToMeeting, hb, hzero]
  have hex2 : getDB s (mkExportedMeeting (dbToMeeting db)).metadata.id = some db := by
    rw [show (mkExportedMeeting (dbToMeeting db)).metadata.id = i from hid]
    exact h
  have hid2 : (buildImportMeeting (mkExportedMeeting (dbToMeeting db))
      (exportZipOf (dbToMeeting db))).id = i := hid
  rw [exportMeeting_ok s i db h]
  dsimp only [Except.bind]
  rw [importMeeting_replace_ok s (exportZipOf (dbToMeeting db))
    (mkExportedMeeting (dbToMeeting db)) db freshId rfl hex2]
  dsimp only [Except.map]
  rw [getMeeting_save s _ i hid2, import_export_normalize (dbToMeeting db) hm, hid2]

/-- Witness for C2 (amended) at a concrete non-archived stored meeting. -/
theorem export_import_replace_roundtrip_C2_witness :
    ((exportMeeting sampleStore ("a".data)).bind
        (fun z => importMeeting sampleStore z DuplicatePolicy.replace ("f".data))).map
      (fun p => (getMeeting p.1 ("a".data), p.2))
      = Except.ok (some (dbToMeeting (meetingToDB sampleMeeting)), "a".data) :=
  export_import_replace_roundtrip_C2 sampleStore ("a".data)
    (meetingToDB sampleMeeting) ("f".data) rfl (by decide)

theorem combineSegments_cons_none (cum : ℚ) (r : WhisperResponse)
    (rest : List WhisperResponse) (h : r.segments = none) :
    combineSegments cum (r :: rest) = combineSegments cum rest := by
  conv_lhs => unfold combineSegments
  rw [h]

theorem combineSegments_cons_some (cum : ℚ) (r : WhisperResponse)
    (rest : List WhisperResponse) (segs : List WhisperSegment)
    (h : r.segments = some segs) :
    combineSegments cum (r :: rest)
      = segs.map (shiftSegment cum) ++
        combineSegments
          (match (segs.map (shiftSegment cum)).getLast? with
           | some lastSeg => lastSeg.stop
           | none => cum) rest := by
  conv_lhs => unfold combineSegments
  rw [h]

theorem segTimestamps_append (l1 l2 : List WhisperSegment) :
    segTimestamps (l1 ++ l2) = segTimestamps l1 ++ segTimestamps l2 := by
  unfold segTimestamps
  exact List.flatMap_append l1 l2 _

theorem segTimestamps_map_shift (c : ℚ) (segs : List WhisperSegment) :
    segTimestamps (segs.map (shiftSegment c))
      = (segTimestamps segs).map (fun t => t + c) := by
  induction segs with
  | nil => rfl
  | cons sg t ih => simp [segTimestamps, shiftSegment] at ih ⊢; exact ih

theorem segTimestamps_getLast_stop (segs : List WhisperSegment)
    (sg : WhisperSegment) (h : segs.getLast? = some sg) :
    (segTimestamps segs).getLast? = some sg.stop := by
  induction segs with
  | nil => cases h
  | cons a t ih =>
      cases t with
      | nil =>
          simp at h
          subst h
          simp [segTimestamps]
      | cons b u =>
          have h2 : (b :: u).getLast? = some sg := by
            rw [← h]
            exact (List.getLast?_cons_cons).symm
          have ihh := ih h2
          have hsplit : segTimestamps (a :: b :: u)
              = [a.start, a.stop] ++ segTimestamps (b :: u) := by
            simp [segTimestamps]
          rw [hsplit, List.getLast?_append, ihh]
          rfl

/-- The invariant of the combining loop: if every chunk's timestamps are
non-decreasing and start at or after 0, then for every starting offset `cum`
the combined timestamp sequence is non-decreasing and bounded below by
`cum`. -/
theorem combineSegments_chain (rs : List WhisperResponse)
    (hchain : ∀ r ∈ rs, List.Chain' (· ≤ ·) (segTimestamps (r.segments.getD [])))
    (hhead : ∀ r ∈ rs, ∀ t ∈ (segTimestamps (r.segments.getD [])).head?, 0 ≤ t) :
    ∀ cum : ℚ, List.Chain' (· ≤ ·) (segTimestamps (combineSegments cum rs))
      ∧ ∀ t ∈ (segTimestamps (combineSegments cum rs)).head?, cum ≤ t := by
  induction rs with
  | nil =>
      intro cum
      exact ⟨by simp [combineSegments, segTimestamps],
        by simp [combineSegments, segTimestamps]⟩
  | cons r rest ih =>
      have IH := ih
        (fun x hx => hchain x (List.mem_cons_of_mem _ hx))
        (fun x hx => hhead x (List.mem_cons_of_mem _ hx))
      intro cum
      cases hseg : r.segments with
      | none =>
          rw [combineSegments_cons_none cum r rest hseg]
          exact IH cum
      | some segs =>
          cases segs with
          | nil =>
              rw [combineSegments_cons_some cum r rest [] hseg]
              simp only [List.map_nil, List.getLast?_nil, List.nil_append]
              exact IH cum
          | cons s0 rest0 =>
              rw [combineSegments_cons_some cum r rest (s0 :: rest0) hseg]
              obtain ⟨lastS, hlast⟩ :
                  ∃ a, ((s0 :: rest0).map (shiftSegment cum)).getLast? = some a := by
                have hne : ((s0 :: rest0).map (shiftSegment cum)) ≠ [] := by simp
                exact Option.isSome_iff_exists.mp (List.getLast?_isSome.mpr hne)
              rw [hlast]
              dsimp only
              have hts : segTimestamps ((s0 :: rest0).map (shiftSegment cum))
                  = (segTimestamps (s0 :: rest0)).map (fun t => t + cum) :=
                segTimestamps_map_shift cum _
              have hchain_r : List.Chain' (· ≤ ·) (segTimestamps (s0 :: rest0)) := by
                have hc := hchain r (List.mem_cons_self _ _)
                rw [hseg] at hc
                simpa using hc
              have hhead_r : 0 ≤ s0.start := by
                have hh := hhead r (List.mem_cons_self _ _)
                rw [hseg] at hh
                simp [segTimestamps] at hh
                exact hh
              have hgl : ((segTimestamps (s0 :: rest0)).map (fun t => t + cum)).getLast?
                  = some lastS.stop := by
                rw [← hts]
                exact segTimestamps_getLast_stop _ lastS hlast
              have IHl := IH lastS.stop
              constructor
              · rw [segTimestamps_append, hts, List.chain'_append]
                refine ⟨?_, IHl.1, ?_⟩
                · rw [List.chain'_map]
                  exact hchain_r.imp (fun a b hab => add_le_add_right hab cum)
                · intro x hx y hy
                  rw [hgl] at hx
                  simp at hx
                  subst hx
                  exact IHl.2 y hy
              · rw [segTimestamps_append, hts]
                intro t ht
                rw [List.head?_append] at ht
                have hh : ((segTimestamps (s0 :: rest0)).map (fun t => t + cum)).head?
                    = some (s0.start + cum) := by
                  simp [segTimestamps]
                rw [hh] at ht
                simp at ht
                subst ht
                linarith

/-- C8: the combining step of `transcribeChunkedAudio` shifts each chunk's
segment timestamps by the running cumulative end time (the offset-adjusted
end of the last segment of the preceding chunks) before concatenating, so
whenever every chunk's own timestamp sequence is non-decreasing and starts
at or after 0, the combined result's timestamps are non-decreasing across
chunk boundaries. -/
theorem chunk_timestamps_monotone_C8 (results : List WhisperResponse)
    (hchain : ∀ r ∈ results,
      List.Chain' (· ≤ ·) (segTimestamps (r.segments.getD [])))
    (hhead : ∀ r ∈ results,
      ∀ t ∈ (segTimestamps (r.segments.getD [])).head?, 0 ≤ t) :
    List.Chain' (· ≤ ·)
      (segTimestamps (((transcribeChunkedCombine results).segments).getD [])) := by
  have hmain := (combineSegments_chain results hchain hhead 0).1
  simpa [transcribeChunkedCombine] using hmain

/-- Witness for C8 at two concrete one-segment chunks. -/
theorem chunk_timestamps_monotone_C8_witness :
    List.Chain' (· ≤ ·)
      (segTimestamps (((transcribeChunkedCombine sampleChunks).segments).getD [])) :=
  chunk_timestamps_monotone_C8 sampleChunks
    (by simp [sampleChunks, sampleSeg, segTimestamps])
    (by simp [sampleChunks, sampleSeg, segTimestamps])

end Elaara
